import Mathlib

/-!
Shallow embedding of the OpenOrCadParser stream-record parser
(Parser.cpp / Parser.hpp and the stream readers) together with proofs
about the claims of its specification.

Byte streams are lists of natural numbers below 256; all integers are
little-endian, following DataStream.  The parser state carries the
remaining bytes, the current offset and the `mByteOffset` field that
 read_type_prefix records for later version- and size-dependent
branches.
-/

namespace O2CP

/-- Parse-time error kinds, mirroring the exception kinds thrown by the
parser (`TruncatedStream`, `MagicMismatch` for `assumeData`,
`TagMismatch` for prefix tag disagreement, `UnknownStructure` for the
dispatcher default, `UnknownEnumValue` for enum conversion failures,
`InvariantViolated` for runtime errors such as bad separators, and
`OutOfRange` for `std::out_of_range` from string-table lookups).
`fuelOut` is an artefact of the embedding of mutual recursion. -/
inductive PErr where
  | truncated
  | magicMismatch
  | tagMismatch
  | unknownStructure
  | unknownEnum
  | invariant
  | outOfRange
  | fuelOut
deriving Repr, DecidableEq

/-- State of the parser over one open stream: the remaining bytes of the
stream, the current offset (`getCurrentOffset`), and `mByteOffset` as
recorded by the latest standard type prefix. -/
structure PState where
  bytes : List Nat
  pos : Nat
  byteOffset : Nat
deriving Repr, DecidableEq

deriving instance DecidableEq for Except

/-- Parser monad: a state-and-error monad over `PState`, the shallow
embedding of member functions of `Parser` that read from `mDs`. -/
def PM (α : Type) : Type := PState → Except PErr (α × PState)

/-- Monadic return for `PM`. -/
def PM.pure (a : α) : PM α := fun s => .ok (a, s)

/-- Monadic bind for `PM`. -/
def PM.bind (m : PM α) (f : α → PM β) : PM β := fun s =>
  match m s with
  | .ok (a, s₁) => f a s₁
  | .error e => .error e

instance : Monad PM where
  pure := PM.pure
  bind := PM.bind

/-- Raise a parse error, the embedding of a thrown exception. -/
def PM.fail (e : PErr) : PM α := fun _ => .error e

@[simp] theorem PM.pure_apply (a : α) (s : PState) :
    ( PM.pure a : PM α) s = .ok (a, s) := rfl

@[simp] theorem PM.monad_pure_apply (a : α) (s : PState) :
    (Pure.pure a : PM α) s = .ok (a, s) := rfl

@[simp] theorem PM.fail_apply (e : PErr) (s : PState) :
    ( PM.fail e : PM α) s = .error e := rfl

theorem PM.bind_apply (m : PM α) (f : α → PM β) (s : PState) :
    PM.bind m f s = match m s with
      | .ok (a, s₁) => f a s₁
      | .error e => .error e := rfl

@[simp] theorem PM.bind_ok (m : PM α) (f : α → PM β) (s s₁ : PState) (a : α)
    (h : m s = .ok (a, s₁)) : PM.bind m f s = f a s₁ := by
  simp [PM.bind, h]

@[simp] theorem PM.monad_bind (m : PM α) (f : α → PM β) :
    (Bind.bind m f : PM β) = PM.bind m f := rfl

@[simp] theorem PM.bind_pure_left (a : α) (f : α → PM β) :
    PM.bind (PM.pure a) f = f a := by
  funext s
  simp [PM.bind, PM.pure]

@[simp] theorem PM.bind_fail (e : PErr) (f : α → PM β) :
    PM.bind (PM.fail e) f = PM.fail e := by
  funext s
  simp [PM.bind, PM.fail]

/-! ## DataStream primitives

Modelled from the spec: the DataStream implementation is not under
`src/`, only its interface is used there.  Per the spec it is a
positioned little-endian byte reader whose reads past the end fail with
`TruncatedStream`, and whose strings are byte sequences terminated by
`NUL`, the terminator being consumed but excluded from the result. -/

/-- Modelled from the spec: `DataStream::readUint8` reads one byte and
advances, failing with `TruncatedStream` at end of stream. -/
def readUint8 : PM Nat := fun s =>
  match s.bytes with
  | [] => .error .truncated
  | b :: rest => .ok (b, ⟨rest, s.pos + 1, s.byteOffset⟩)

/-- Modelled from the spec: `readUint16`, little-endian. -/
def readUint16 : PM Nat :=
  PM.bind readUint8 fun b0 =>
  PM.bind readUint8 fun b1 =>
  PM.pure (b0 + 256 * b1)

/-- Modelled from the spec: `readUint32`, little-endian. -/
def readUint32 : PM Nat :=
  PM.bind readUint8 fun b0 =>
  PM.bind readUint8 fun b1 =>
  PM.bind readUint8 fun b2 =>
  PM.bind readUint8 fun b3 =>
  PM.pure (b0 + 256 * b1 + 65536 * b2 + 16777216 * b3)

/-- Two's-complement reinterpretation of a `w`-bit unsigned value. -/
def toSigned (w v : Nat) : Int :=
  if v < 2 ^ (w - 1) then (v : Int) else (v : Int) - 2 ^ w

/-- Modelled from the spec: `readInt16`, little-endian two's complement. -/
def readInt16 : PM Int :=
  PM.bind readUint16 fun v => PM.pure (toSigned 16 v)

/-- Modelled from the spec: `readInt32`, little-endian two's complement. -/
def readInt32 : PM Int :=
  PM.bind readUint32 fun v => PM.pure (toSigned 32 v)

/-- Modelled from the spec: `printUnknownData(n)` / `discardBytes(n)`
advance `n` bytes, failing with `TruncatedStream` when fewer remain. -/
def skipBytes : Nat → PM Unit
  | 0 => PM.pure ()
  | n + 1 => PM.bind readUint8 fun _ => skipBytes n

/-- Modelled from the spec: `assumeData(expected)` consumes
`expected.length` bytes and fails with a mismatch error unless they
equal `expected` exactly. -/
def assumeData : List Nat → PM Unit
  | [] => PM.pure ()
  | e :: es =>
      PM.bind readUint8 fun b =>
      if b = e then assumeData es else PM.fail .magicMismatch

/-- Split a byte list at its first zero byte: the bytes before it and
the bytes after it.  Returns `none` when no zero byte occurs. -/
def takeZstr : List Nat → Option (List Nat × List Nat)
  | [] => none
  | b :: rest =>
      if b = 0 then some ([], rest)
      else match takeZstr rest with
        | some (nm, r) => some (b :: nm, r)
        | none => none

/-- Modelled from the spec: `readStringLenZeroTerm` returns the byte
sequence up to a `NUL`, consuming the terminator but excluding it from
the result; reaching end of stream first is `TruncatedStream`. -/
def readStringLenZeroTerm : PM (List Nat) := fun s =>
  match takeZstr s.bytes with
  | some (nm, rest) => .ok (nm, ⟨rest, s.pos + nm.length + 1, s.byteOffset⟩)
  | none => .error .truncated

/-- Embedding of `mDs.isEoF()`. -/
def isEoF (s : PState) : Bool := s.bytes.isEmpty

/-- The EoF assertion performed at the end of several stream parsers:
`if(!mDs.isEoF()) throw runtime_error(...)`. -/
def ensureEoF : PM Unit := fun s =>
  if s.bytes.isEmpty then .ok ((), s) else .error .invariant

/-- Embedding of the assignment `mByteOffset = ...` inside the standard
type prefix reader. -/
def setByteOffset (v : Nat) : PM Unit := fun s =>
  .ok ((), ⟨s.bytes, s.pos, v⟩)

@[simp] theorem readUint8_cons (b : Nat) (rest : List Nat) (p o : Nat) :
    readUint8 ⟨b :: rest, p, o⟩ = .ok (b, ⟨rest, p + 1, o⟩) := rfl

@[simp] theorem readUint8_nil (p o : Nat) :
    readUint8 ⟨[], p, o⟩ = .error .truncated := rfl

@[simp] theorem setByteOffset_apply (v : Nat) (s : PState) :
    setByteOffset v s = .ok ((), ⟨s.bytes, s.pos, v⟩) := rfl

@[simp] theorem ensureEoF_nil (p o : Nat) :
    ensureEoF ⟨[], p, o⟩ = .ok ((), ⟨[], p, o⟩) := by
  simp [ensureEoF]

@[simp] theorem ensureEoF_cons (b : Nat) (r : List Nat) (p o : Nat) :
    ensureEoF ⟨b :: r, p, o⟩ = .error .invariant := by
  simp [ensureEoF]

end O2CP

namespace O2CP

/-! ## Enum catalogue

The enum headers (`Enums/Structure.hpp` etc.) are not under `src/`;
their conversion functions are modelled from the spec: each is total on
its known encodings and fails with `UnknownEnumValue` otherwise. -/

/-- The `Structure` tag enumeration, one variant per record kind named
in the dispatcher `Parser::parseStructure` plus the variants listed in
`requiresPreamble`. -/
inductive Structure where
  | SthInPages0
  | Properties
  | PartInst
  | T0x10
  | WireScalar
  | GeoDefinition
  | SymbolPinScalar
  | SymbolPinBus
  | T0x1f
  | PinIdxMapping
  | GlobalSymbol
  | PortSymbol
  | OffPageSymbol
  | SymbolDisplayProp
  | Alias
  | GraphicBoxInst
  | GraphicCommentTextInst
  | ERCSymbol
  | PinShapeSymbol
  | SymbolVector
  | TitleBlockSymbol
  | BusEntry
deriving Repr, DecidableEq

/-- Modelled from the spec: the encoding table of `ToStructure`.  The
enum header is not under `src/`; the encodings `0x0d` (package
instance), `0x10` (`T0x10`) and `0x1f` (`T0x1f`) are fixed by the code,
the remaining codes are distinct placeholders. -/
def ToStructure (n : Nat) : Option Structure :=
  if n = 0x0d then some .PartInst
  else if n = 0x10 then some .T0x10
  else if n = 0x1f then some .T0x1f
  else if n = 0x20 then some .SthInPages0
  else if n = 0x21 then some .Properties
  else if n = 0x22 then some .WireScalar
  else if n = 0x23 then some .GeoDefinition
  else if n = 0x24 then some .SymbolPinScalar
  else if n = 0x25 then some .SymbolPinBus
  else if n = 0x26 then some .PinIdxMapping
  else if n = 0x27 then some .GlobalSymbol
  else if n = 0x28 then some .PortSymbol
  else if n = 0x29 then some .OffPageSymbol
  else if n = 0x2a then some .SymbolDisplayProp
  else if n = 0x2b then some .Alias
  else if n = 0x2c then some .GraphicBoxInst
  else if n = 0x2d then some .GraphicCommentTextInst
  else if n = 0x2e then some .ERCSymbol
  else if n = 0x2f then some .PinShapeSymbol
  else if n = 0x30 then some .SymbolVector
  else if n = 0x31 then some .TitleBlockSymbol
  else if n = 0x32 then some .BusEntry
  else none

/-- Monadic wrapper around `ToStructure`: an unknown raw value fails
with `UnknownEnumValue`, as the spec requires of every enum catalogue
conversion. -/
def ToStructureM (n : Nat) : PM Structure :=
  match ToStructure n with
  | some st => PM.pure st
  | none => PM.fail .unknownEnum

/-- The `GeometryStructure` enumeration of leaf geometry primitives. -/
inductive GeometryStructure where
  | Rect
  | Line
  | Arc
  | Ellipse
  | Polygon
  | Polyline
  | CommentText
  | Bitmap
  | SymbolVector
  | Bezier
deriving Repr, DecidableEq

/-- Modelled from the spec: the encoding table of
`ToGeometryStructure`; the enum header is not under `src/`, the codes
are distinct placeholders. -/
def ToGeometryStructure (n : Nat) : Option GeometryStructure :=
  if n = 1 then some .Rect
  else if n = 2 then some .Line
  else if n = 3 then some .Arc
  else if n = 4 then some .Ellipse
  else if n = 5 then some .Polygon
  else if n = 6 then some .Polyline
  else if n = 7 then some .CommentText
  else if n = 8 then some .Bitmap
  else if n = 9 then some .SymbolVector
  else if n = 10 then some .Bezier
  else none

/-- Monadic wrapper around `ToGeometryStructure`. -/
def ToGeometryStructureM (n : Nat) : PM GeometryStructure :=
  match ToGeometryStructure n with
  | some g => PM.pure g
  | none => PM.fail .unknownEnum

/-- Embedding of `ToRotation`: the packed rotation field is two bits
wide and `Rotation` has exactly the four variants 0..3; other raw
values fail with `UnknownEnumValue`. -/
def ToRotationM (n : Nat) : PM Nat :=
  if n < 4 then PM.pure n else PM.fail .unknownEnum

/-- Modelled from the spec: `ToColor`, `ToLineWidth`, `ToLineStyle`,
`ToPinShape`, `ToPortType`, `ToComponentType` and similar conversions
whose encodings are not under `src/`.  No claim depends on their value
sets, so they are modelled as returning the raw value. -/
def ToRawEnumM (n : Nat) : PM Nat := PM.pure n

/-- File format versions, ordered `A < B < C` as in the spec. -/
inductive FileFormatVersion where
  | A
  | B
  | C
deriving Repr, DecidableEq

/-- Numeric order of file format versions. -/
def FileFormatVersion.toNat : FileFormatVersion → Nat
  | .A => 0
  | .B => 1
  | .C => 2

/-- Version comparison used for `mFileFormatVersion >= FileFormatVersion::B`. -/
def FileFormatVersion.atLeast (v w : FileFormatVersion) : Bool :=
  w.toNat ≤ v.toNat

/-! ## Library context -/

/-- The parts of `Library::symbolsLibrary` that record readers consult:
the global string table `strLst` and the text-font table. -/
structure SymbolsLibrary where
  strLst : List (List Nat)
  textFonts : List Nat

/-- Read-only context of a parsing run: the library assembled so far,
the file format version, and the readers whose implementation is not
under `src/`.  `geomLeaf` stands for the leaf geometry readers
(`readRect`, `readLine`, ..., `readSymbolVector`), which per the spec
each consume a fixed-layout body; `missingReader` stands for
`parseGlobalSymbol`, `parseSymbolHierarchic`, `parseOffPageSymbol` and
`readPinShapeSymbol`.  Modelled from the spec: both are supplied as
parameters and the theorems quantify over them. -/
structure Ctx where
  lib : SymbolsLibrary
  version : FileFormatVersion
  geomLeaf : GeometryStructure → PM Unit
  missingReader : Structure → PM Unit

/-- Embedding of the `getStr` lambda inside
`Parser::read_type_prefix_short` (part_000 lines 971 to 975): the index
is decremented as a signed 64-bit value, a negative result yields the
empty string, and `strLst.at` throws `std::out_of_range` past the end,
which the surrounding catch block rethrows. -/
def getStr (lib : SymbolsLibrary) (idx : Nat) : Except PErr (List Nat) :=
  if idx = 0 then .ok []
  else match lib.strLst.get? (idx - 1) with
    | some str => .ok str
    | none => .error .outOfRange

/-- Embedding of the lookup
`strLst.at(symbolDisplayProp.nameIdx - 1)` in
`Parser::readSymbolDisplayProp` (part_000 line 1503): `nameIdx` is a
`uint32_t`, so the subtraction wraps modulo `2^32` and no zero guard is
applied before `at`, which throws `std::out_of_range` past the end. -/
def sdpNameLookup (lib : SymbolsLibrary) (nameIdx : Nat) : Except PErr (List Nat) :=
  match lib.strLst.get? ((nameIdx + 4294967295) % 4294967296) with
  | some str => .ok str
  | none => .error .outOfRange

/-- Lift an `Except` value into the parser monad. -/
def PM.ofExcept (r : Except PErr α) : PM α := fun s =>
  match r with
  | .ok a => .ok (a, s)
  | .error e => .error e

@[simp] theorem PM.ofExcept_ok (a : α) (s : PState) :
    ( PM.ofExcept (.ok a) : PM α) s = .ok (a, s) := rfl

@[simp] theorem PM.ofExcept_error (e : PErr) (s : PState) :
    ( PM.ofExcept (.error e) : PM α) s = .error e := rfl

end O2CP

namespace O2CP

/-! ## Prefix decoder (Parser.cpp part_000 lines 873 to 1039) -/

/-- Embedding of the name-value pair loop of
`Parser::read_type_prefix_short` for `size >= 0`: `size` pairs of
`u32` string-list indices. -/
def readPairs : Nat → PM (List (Nat × Nat))
  | 0 => PM.pure []
  | n + 1 =>
      PM.bind readUint32 fun a =>
      PM.bind readUint32 fun b =>
      PM.bind (readPairs n) fun rest =>
      PM.pure ((a, b) :: rest)

/-- Embedding of the debug loop over `nameValueMapping` in
`Parser::read_type_prefix_short`: every name and value index is
resolved through `getStr`, and `std::out_of_range` from `strLst.at` is
rethrown. -/
def checkPairs (lib : SymbolsLibrary) : List (Nat × Nat) → PM Unit
  | [] => PM.pure ()
  | (a, b) :: rest =>
      PM.bind (PM.ofExcept (getStr lib a)) fun _ =>
      PM.bind (PM.ofExcept (getStr lib b)) fun _ =>
      checkPairs lib rest

/-- Embedding of `Parser::read_type_prefix_short` (part_000 lines 928
to 1002): tag, a length-or-lock `u32` (observed values are logged but
never rejected), 4 unknown bytes, the repeated tag, a signed 16-bit
pair count, and for a non-negative count that many name-value index
pairs, each resolved against the string table.  Note that the repeated
tag is read but never compared against the first tag. -/
def read_type_prefix_short (ctx : Ctx) : PM Structure :=
  PM.bind readUint8 fun rawId =>
  PM.bind (ToStructureM rawId) fun typeId =>
  PM.bind readUint32 fun _byteLength =>
  PM.bind (skipBytes 4) fun _ =>
  PM.bind readUint8 fun rawRep =>
  PM.bind (ToStructureM rawRep) fun _typeIdRep =>
  PM.bind readInt16 fun size =>
  PM.bind (if 0 ≤ size then
      PM.bind (readPairs size.toNat) fun pairs =>
      checkPairs ctx.lib pairs
    else PM.pure ()) fun _ =>
  PM.pure typeId

/-- Embedding of read_type_prefix of Parser (part_000 lines 898 to
925): tag, then `mByteOffset` as a `u32`, four zero bytes, and the
short form; the tag must equal the tag returned by the short form or
the record is rejected with `TagMismatch`. -/
def read_type_prefix (ctx : Ctx) : PM Structure :=
  PM.bind readUint8 fun rawId =>
  PM.bind (ToStructureM rawId) fun typeId =>
  PM.bind readUint32 fun bo =>
  PM.bind (setByteOffset bo) fun _ =>
  PM.bind (assumeData [0, 0, 0, 0]) fun _ =>
  PM.bind ( read_type_prefix_short ctx) fun typeIdRep =>
  if typeId = typeIdRep then PM.pure typeId else PM.fail .tagMismatch

/-- Embedding of `Parser::read_type_prefix_long` (part_000 lines 873
to 895): tag, 2 unknown bytes, six zero bytes, then a standard prefix
whose tag must equal the outer tag. -/
def read_type_prefix_long (ctx : Ctx) : PM Structure :=
  PM.bind readUint8 fun rawId =>
  PM.bind (ToStructureM rawId) fun typeId =>
  PM.bind (skipBytes 2) fun _ =>
  PM.bind (assumeData [0, 0, 0, 0, 0, 0]) fun _ =>
  PM.bind ( read_type_prefix ctx) fun typeIdRep =>
  if typeId = typeIdRep then PM.pure typeId else PM.fail .tagMismatch

/-- Embedding of `Parser::readPreamble` (part_000 lines 1005 to 1025):
the four magic bytes `FF E4 5C 39`, then (when requested) a `u32`
optional length followed by that many opaque lock bytes. -/
def readPreamble (readOptionalLen : Bool) : PM Nat :=
  PM.bind (assumeData [0xff, 0xe4, 0x5c, 0x39]) fun _ =>
  PM.bind (if readOptionalLen then readUint32 else PM.pure 0) fun optionalLen =>
  PM.bind (skipBytes optionalLen) fun _ =>
  PM.pure optionalLen

/-! ## Record readers that do not recurse through the dispatcher -/

/-- Embedding of `Parser::readGeometryStructure`: dispatches on the
`GeometryStructure` tag to the leaf readers, which are not under
`src/` and are supplied by the context. -/
def readGeometryStructure (ctx : Ctx) (g : GeometryStructure) : PM Unit :=
  ctx.geomLeaf g

/-- Embedding of the repeated-geometry loops in `readSthInPages0` and
`readERCSymbol`: each iteration reads two `GeometryStructure` bytes
that must agree, then reads the corresponding primitive. -/
def geomPairLoop (ctx : Ctx) : Nat → PM Unit
  | 0 => PM.pure ()
  | n + 1 =>
      PM.bind readUint8 fun r1 =>
      PM.bind (ToGeometryStructureM r1) fun g1 =>
      PM.bind readUint8 fun r2 =>
      PM.bind (ToGeometryStructureM r2) fun g2 =>
      if g1 = g2 then
        PM.bind (readGeometryStructure ctx g1) fun _ =>
        geomPairLoop ctx n
      else PM.fail .invariant

/-- Embedding of `Parser::readSthInPages0` (part_000 lines 1079 to
1102). -/
def readSthInPages0 (ctx : Ctx) : PM Unit :=
  PM.bind (skipBytes 6) fun _ =>
  PM.bind (skipBytes 4) fun _ =>
  PM.bind readUint16 fun len =>
  geomPairLoop ctx len

/-- Embedding of `Parser::readSymbolBBox` (part_000 lines 1582 to
1600). -/
def readSymbolBBox : PM (Int × Int × Int × Int) :=
  PM.bind readInt16 fun x1 =>
  PM.bind readInt16 fun y1 =>
  PM.bind readInt16 fun x2 =>
  PM.bind readInt16 fun y2 =>
  PM.bind (skipBytes 4) fun _ =>
  PM.pure (x1, y1, x2, y2)

/-- Embedding of `Parser::readERCSymbol` (part_000 lines 1550 to
1579). -/
def readERCSymbol (ctx : Ctx) : PM Unit :=
  PM.bind readStringLenZeroTerm fun _name =>
  PM.bind (skipBytes 3) fun _ =>
  PM.bind (skipBytes 4) fun _ =>
  PM.bind readUint16 fun len =>
  PM.bind (geomPairLoop ctx len) fun _ =>
  PM.bind (readPreamble true) fun _ =>
  PM.bind readSymbolBBox fun _ =>
  PM.pure ()

/-- Embedding of `Parser::readT0x10` (part_000 lines 791 to 798). -/
def readT0x10 : PM Unit := skipBytes 16

/-- Embedding of `Parser::readGraphicCommentTextInst` (part_000 lines
1105 to 1112). -/
def readGraphicCommentTextInst : PM Unit := skipBytes 34

/-- Embedding of `Parser::readAlias` (part_000 lines 1168 to 1194). -/
def readAlias : PM Unit :=
  PM.bind readInt32 fun _locX =>
  PM.bind readInt32 fun _locY =>
  PM.bind readUint32 fun colorRaw =>
  PM.bind (ToRawEnumM colorRaw) fun _color =>
  PM.bind readUint32 fun rotRaw =>
  PM.bind (ToRotationM rotRaw) fun _rotation =>
  PM.bind readUint16 fun _textFontIdx =>
  PM.bind (skipBytes 2) fun _ =>
  PM.bind readStringLenZeroTerm fun _name =>
  PM.pure ()

/-- Result of `Parser::readSymbolPinScalar` and `readSymbolPinBus`. -/
structure SymbolPin where
  name : List Nat
  startX : Int
  startY : Int
  hotptX : Int
  hotptY : Int
  pinShape : Nat
  portType : Nat
deriving Repr, DecidableEq

/-- Embedding of `Parser::readSymbolPinScalar` (part_000 lines 1437 to
1462); `readSymbolPinBus` reads the identical layout. -/
def readSymbolPinScalar : PM SymbolPin :=
  PM.bind readStringLenZeroTerm fun name =>
  PM.bind readInt32 fun startX =>
  PM.bind readInt32 fun startY =>
  PM.bind readInt32 fun hotptX =>
  PM.bind readInt32 fun hotptY =>
  PM.bind readUint16 fun shapeRaw =>
  PM.bind (ToRawEnumM shapeRaw) fun pinShape =>
  PM.bind (skipBytes 2) fun _ =>
  PM.bind readUint32 fun portRaw =>
  PM.bind (ToRawEnumM portRaw) fun portType =>
  PM.bind (skipBytes 6) fun _ =>
  PM.pure ⟨name, startX, startY, hotptX, hotptY, pinShape, portType⟩

/-- Embedding of `Parser::readT0x1f` (part_000 lines 1604 to 1630). -/
def readT0x1f : PM (List Nat × List Nat × List Nat) :=
  PM.bind readStringLenZeroTerm fun name =>
  PM.bind readStringLenZeroTerm fun _unknownStr0 =>
  PM.bind readStringLenZeroTerm fun refDes =>
  PM.bind readStringLenZeroTerm fun _unknownStr1 =>
  PM.bind readStringLenZeroTerm fun pcbFootprint =>
  PM.bind (skipBytes 2) fun _ =>
  PM.pure (name, refDes, pcbFootprint)

/-- Result of `Parser::readProperties`. -/
structure Properties where
  ref : List Nat
  convertName : Option (List Nat)
  name : List Nat
deriving Repr, DecidableEq

/-- Embedding of `Parser::readProperties` (part_000 lines 1691 to
1735): reference string, three zero bytes, the `u16` view number,
`convertName` exactly when the view number is 2 and a runtime error for
any view number other than 1 or 2, then the record name and 29 opaque
bytes. -/
def readProperties : PM Properties :=
  PM.bind readStringLenZeroTerm fun ref =>
  PM.bind (assumeData [0, 0, 0]) fun _ =>
  PM.bind readUint16 fun viewNumber =>
  PM.bind (if viewNumber = 1 then PM.pure none
    else if viewNumber = 2 then
      PM.bind readStringLenZeroTerm fun cv => PM.pure (some cv)
    else PM.fail .invariant) fun convertName =>
  PM.bind readStringLenZeroTerm fun name =>
  PM.bind (skipBytes 29) fun _ =>
  PM.pure ⟨ref, convertName, name⟩

/-- Result of `Parser::readPinIdxMapping`. -/
structure PinIdxMapping where
  unitRef : List Nat
  refDes : List Nat
  pinMap : List (List Nat)
deriving Repr, DecidableEq

/-- Embedding of the per-pin loop of `Parser::readPinIdxMapping`: each
pin is a zero-terminated name followed by a separator byte that must be
`0x7F`, `0xAA` or `0xFF`; any other separator raises a runtime
error. -/
def readPins : Nat → PM (List (List Nat))
  | 0 => PM.pure []
  | n + 1 =>
      PM.bind readStringLenZeroTerm fun nm =>
      PM.bind readUint8 fun sep =>
      if sep = 0x7f ∨ sep = 0xaa ∨ sep = 0xff then
        PM.bind (readPins n) fun rest => PM.pure (nm :: rest)
      else PM.fail .invariant

/-- Embedding of `Parser::readPinIdxMapping` (part_000 lines 1399 to
1434). -/
def readPinIdxMapping : PM PinIdxMapping :=
  PM.bind readStringLenZeroTerm fun unitRef =>
  PM.bind readStringLenZeroTerm fun refDes =>
  PM.bind readUint16 fun pinCount =>
  PM.bind (readPins pinCount) fun pinMap =>
  PM.pure ⟨unitRef, refDes, pinMap⟩

/-- Result of `Parser::readSymbolDisplayProp`. -/
structure SymbolDisplayProp where
  nameIdx : Nat
  x : Int
  y : Int
  textFontIdx : Nat
  rotation : Nat
  propColor : Nat
deriving Repr, DecidableEq

/-- Embedding of `Parser::readSymbolDisplayProp` (part_000 lines 1493
to 1546): `u32` string-list index (resolved immediately against
`strLst` with a wrapping decrement and no zero guard), `i16`
coordinates, the packed `u16` word whose low byte is `textFontIdx`
(bounded by the text-font table length), whose bits 8 to 13 must be
zero, and whose top two bits are the rotation; then the colour byte,
two opaque bytes and an asserted zero byte. -/
def readSymbolDisplayProp (ctx : Ctx) : PM SymbolDisplayProp :=
  PM.bind readUint32 fun nameIdx =>
  PM.bind (PM.ofExcept (sdpNameLookup ctx.lib nameIdx)) fun _ =>
  PM.bind readInt16 fun x =>
  PM.bind readInt16 fun y =>
  PM.bind readUint16 fun packed =>
  if packed % 256 > ctx.lib.textFonts.length then PM.fail .outOfRange
  else if (packed / 256) % 64 ≠ 0 then PM.fail .invariant
  else
  PM.bind (ToRotationM (packed / 16384)) fun rotation =>
  PM.bind readUint8 fun colorRaw =>
  PM.bind (ToRawEnumM colorRaw) fun propColor =>
  PM.bind (skipBytes 2) fun _ =>
  PM.bind (assumeData [0]) fun _ =>
  PM.pure ⟨nameIdx, x, y, packed % 256, rotation, propColor⟩

end O2CP

namespace O2CP

/-! ## Geometry specification (part_000 lines 1794 to 1904) -/

/-- Embedding of one iteration of the geometry loop in
`Parser::parseGeometrySpecification`.  `subsequent` is `i > 0`: for a
subsequent primitive, version `B` re-reads a full type prefix and every
version at least `B` re-reads a preamble; then the doubled
`GeometryStructure` byte pair is read and must agree, the primitive is
read, and version `A` consumes 8 trailing opaque bytes. -/
def geomIter (ctx : Ctx) (subsequent : Bool) : PM Unit :=
  PM.bind (if subsequent then
      PM.bind (if ctx.version = .B then
          PM.bind ( read_type_prefix ctx) fun _ => PM.pure ()
        else PM.pure ()) fun _ =>
      (if ctx.version.atLeast .B then
          PM.bind (readPreamble true) fun _ => PM.pure ()
        else PM.pure ())
    else PM.pure ()) fun _ =>
  PM.bind readUint8 fun r1 =>
  PM.bind (ToGeometryStructureM r1) fun g1 =>
  PM.bind readUint8 fun r2 =>
  PM.bind (ToGeometryStructureM r2) fun g2 =>
  if g1 = g2 then
    PM.bind (readGeometryStructure ctx g1) fun _ =>
    (if ctx.version = .A then skipBytes 8 else PM.pure ())
  else PM.fail .invariant

/-- The geometry loop of `parseGeometrySpecification`: the first
iteration runs with `subsequent = false`, all later ones with
`subsequent = true`. -/
def geomLoop (ctx : Ctx) : Nat → Bool → PM Unit
  | 0, _ => PM.pure ()
  | n + 1, sub => PM.bind (geomIter ctx sub) fun _ => geomLoop ctx n true

/-- Embedding of `Parser::parseGeometrySpecification` (part_000 lines
1794 to 1904): name, three asserted byte groups, the `u16` geometry
count and the geometry loop. -/
def parseGeometrySpecification (ctx : Ctx) : PM (List Nat) :=
  PM.bind readStringLenZeroTerm fun name =>
  PM.bind (assumeData [0, 0, 0]) fun _ =>
  PM.bind (assumeData [0x30]) fun _ =>
  PM.bind (assumeData [0, 0, 0]) fun _ =>
  PM.bind readUint16 fun geometryCount =>
  PM.bind (geomLoop ctx geometryCount false) fun _ =>
  PM.pure name

/-- Restatement of one geometry-loop iteration following the words of
the spec, case by file format version: version `A` reads the primitive
pair and then exactly 8 trailing opaque bytes, never re-reading prefix
or preamble; version `B` re-reads a type prefix and a preamble before
every subsequent primitive and adds no trailing bytes; version `C`
re-reads only a preamble before every subsequent primitive and adds no
trailing bytes. -/
def geomIterSpec (ctx : Ctx) (subsequent : Bool) : PM Unit :=
  let primPair : PM Unit :=
    PM.bind readUint8 fun r1 =>
    PM.bind (ToGeometryStructureM r1) fun g1 =>
    PM.bind readUint8 fun r2 =>
    PM.bind (ToGeometryStructureM r2) fun g2 =>
    if g1 = g2 then PM.bind (readGeometryStructure ctx g1) fun _ => PM.pure ()
    else PM.fail .invariant
  match ctx.version with
  | .A => PM.bind primPair fun _ => skipBytes 8
  | .B =>
      PM.bind (if subsequent then
          PM.bind ( read_type_prefix ctx) fun _ =>
          PM.bind (readPreamble true) fun _ => PM.pure ()
        else PM.pure ()) fun _ =>
      primPair
  | .C =>
      PM.bind (if subsequent then
          PM.bind (readPreamble true) fun _ => PM.pure ()
        else PM.pure ()) fun _ =>
      primPair

/-! ## The dispatcher and the readers that recurse through it

The mutual recursion of `parseStructure` with `readWireScalar`,
`readPartInst` and `readGraphicBoxInst` is embedded with an explicit
fuel argument; exhausting the fuel is the error `fuelOut`, so theorems
about successful runs are independent of the amount of fuel. -/

mutual

/-- Embedding of `Parser::parseStructure` (part_000 lines 801 to 840),
the central dispatcher keyed by the `Structure` tag; unknown tags fail
as in the default branch. -/
def parseStructure : Nat → Ctx → Structure → PM Unit
  | 0, _, _ => PM.fail .fuelOut
  | f + 1, ctx, st =>
      match st with
      | .SthInPages0 => readSthInPages0 ctx
      | .Properties => PM.bind readProperties fun _ => PM.pure ()
      | .PartInst => readPartInst f ctx
      | .T0x10 => readT0x10
      | .WireScalar => readWireScalar f ctx
      | .GeoDefinition =>
          PM.bind (readPreamble true) fun _ =>
          PM.bind (parseGeometrySpecification ctx) fun _ => PM.pure ()
      | .SymbolPinScalar => PM.bind readSymbolPinScalar fun _ => PM.pure ()
      | .SymbolPinBus => PM.bind readSymbolPinScalar fun _ => PM.pure ()
      | .T0x1f => PM.bind readT0x1f fun _ => PM.pure ()
      | .PinIdxMapping => PM.bind readPinIdxMapping fun _ => PM.pure ()
      | .GlobalSymbol =>
          PM.bind (readPreamble true) fun _ => ctx.missingReader st
      | .PortSymbol =>
          PM.bind (readPreamble true) fun _ => ctx.missingReader st
      | .OffPageSymbol => ctx.missingReader st
      | .SymbolDisplayProp =>
          PM.bind (readSymbolDisplayProp ctx) fun _ => PM.pure ()
      | .Alias => readAlias
      | .GraphicBoxInst => readGraphicBoxInst f ctx
      | .GraphicCommentTextInst => readGraphicCommentTextInst
      | .ERCSymbol =>
          PM.bind (readPreamble true) fun _ => readERCSymbol ctx
      | .PinShapeSymbol =>
          PM.bind (readPreamble true) fun _ => ctx.missingReader st
      | _ => PM.fail .unknownStructure

/-- Embedding of the repeated pattern read_type_prefix() then
readPreamble() then parseStructure(structure) executed `n` times, as it
appears in `readPartInst`, `readWireScalar` and `parsePage`. -/
def structLoop : Nat → Ctx → Nat → PM Unit
  | 0, _, _ => PM.fail .fuelOut
  | _ + 1, _, 0 => PM.pure ()
  | f + 1, ctx, n + 1 =>
      PM.bind ( read_type_prefix ctx) fun st =>
      PM.bind (readPreamble true) fun _ =>
      PM.bind (parseStructure f ctx st) fun _ =>
      structLoop f ctx n

/-- Embedding of `Parser::readWireScalar` (part_000 lines 1115 to
1165): the fixed 29-byte body, then a branch on the `mByteOffset`
recorded by the preceding standard prefix - equal to `0x3D` consumes 2
opaque bytes, greater than `0x3D` reads a `u16` count of nested
records through the dispatcher, less than `0x3D` consumes nothing -
and finally 2 opaque bytes, the line width and the line style. -/
def readWireScalar : Nat → Ctx → PM Unit
  | 0, _ => PM.fail .fuelOut
  | f + 1, ctx =>
      PM.bind readUint32 fun _dbId =>
      PM.bind (skipBytes 4) fun _ =>
      PM.bind readUint32 fun colorRaw =>
      PM.bind (ToRawEnumM colorRaw) fun _wireColor =>
      PM.bind readInt32 fun _startX =>
      PM.bind readInt32 fun _startY =>
      PM.bind readInt32 fun _endX =>
      PM.bind readInt32 fun _endY =>
      PM.bind (skipBytes 1) fun _ =>
      PM.bind (fun s => .ok (s.byteOffset, s)) fun bo =>
      PM.bind (if bo = 0x3d then skipBytes 2
        else if bo > 0x3d then
          PM.bind readUint16 fun len => structLoop f ctx len
        else PM.pure ()) fun _ =>
      PM.bind (skipBytes 2) fun _ =>
      PM.bind readUint32 fun widthRaw =>
      PM.bind (ToRawEnumM widthRaw) fun _lineWidth =>
      PM.bind readUint32 fun styleRaw =>
      PM.bind (ToRawEnumM styleRaw) fun _lineStyle =>
      PM.pure ()

/-- Embedding of `Parser::readPartInst` (part_000 lines 735 to 788). -/
def readPartInst : Nat → Ctx → PM Unit
  | 0, _ => PM.fail .fuelOut
  | f + 1, ctx =>
      PM.bind (skipBytes 8) fun _ =>
      PM.bind readStringLenZeroTerm fun _pkgName =>
      PM.bind readUint32 fun _dbId =>
      PM.bind (skipBytes 8) fun _ =>
      PM.bind readInt16 fun _locX =>
      PM.bind readInt16 fun _locY =>
      PM.bind readUint16 fun colorRaw =>
      PM.bind (ToRawEnumM colorRaw) fun _color =>
      PM.bind (skipBytes 2) fun _ =>
      PM.bind readUint16 fun len =>
      PM.bind (structLoop f ctx len) fun _ =>
      PM.bind (skipBytes 1) fun _ =>
      PM.bind readStringLenZeroTerm fun _reference =>
      PM.bind (skipBytes 14) fun _ =>
      PM.bind readUint16 fun len2 =>
      PM.bind (structLoop f ctx len2) fun _ =>
      PM.bind readStringLenZeroTerm fun _sth1 =>
      PM.bind (skipBytes 2) fun _ =>
      PM.bind (skipBytes 18) fun _ =>
      PM.bind ( read_type_prefix_long ctx) fun _ =>
      PM.bind (readPreamble true) fun _ =>
      PM.pure ()

/-- Embedding of `Parser::readGraphicBoxInst` (part_000 lines 1198 to
1227). -/
def readGraphicBoxInst : Nat → Ctx → PM Unit
  | 0, _ => PM.fail .fuelOut
  | f + 1, ctx =>
      PM.bind (skipBytes 11) fun _ =>
      PM.bind readUint32 fun _dbId =>
      PM.bind readInt16 fun _locY =>
      PM.bind readInt16 fun _locX =>
      PM.bind readInt16 fun _y2 =>
      PM.bind readInt16 fun _x2 =>
      PM.bind readInt16 fun _x1 =>
      PM.bind readInt16 fun _y1 =>
      PM.bind readUint16 fun colorRaw =>
      PM.bind (ToRawEnumM colorRaw) fun _color =>
      PM.bind (skipBytes 5) fun _ =>
      PM.bind ( read_type_prefix_long ctx) fun st =>
      PM.bind (readPreamble true) fun _ =>
      PM.bind (parseStructure f ctx st) fun _ =>
      PM.pure ()

end

end O2CP

namespace O2CP

/-! ## Stream-level parse routines -/

/-- Fixed-size repetition of an opaque skip, as in the `lenA` and
`len0` loops of `parsePage`. -/
def repeatSkip (k : Nat) : Nat → PM Unit
  | 0 => PM.pure ()
  | n + 1 => PM.bind (skipBytes k) fun _ => repeatSkip k n

/-- The `len1` loop of `parsePage`: a zero-terminated name and 4
opaque bytes per entry. -/
def pageLen1Loop : Nat → PM Unit
  | 0 => PM.pure ()
  | n + 1 =>
      PM.bind readStringLenZeroTerm fun _name =>
      PM.bind (skipBytes 4) fun _ =>
      pageLen1Loop n

/-- The `len3` loop of `parsePage`: the first iteration stands in for
the unimplemented very-long prefix by consuming 47 opaque bytes and
using the synthetic tag `0x0D`; later iterations read a standard type
prefix. -/
def pageLen3Loop (f : Nat) (ctx : Ctx) : Nat → Bool → PM Unit
  | 0, _ => PM.pure ()
  | n + 1, first =>
      PM.bind (if first then
          PM.bind (skipBytes 47) fun _ => ToStructureM 0x0d
        else read_type_prefix ctx) fun st =>
      PM.bind (readPreamble true) fun _ =>
      PM.bind (parseStructure f ctx st) fun _ =>
      pageLen3Loop f ctx n false

/-- Embedding of `Parser::parsePage` (part_000 lines 521 to 732): the
fixed page header, the five variable-length tail sections and the final
end-of-file assertion. -/
def parsePage (f : Nat) (ctx : Ctx) : PM Unit :=
  PM.bind (skipBytes 21) fun _ =>
  PM.bind (readPreamble true) fun _ =>
  PM.bind readStringLenZeroTerm fun _name =>
  PM.bind readStringLenZeroTerm fun _pageSize =>
  PM.bind readUint32 fun _createDateTime =>
  PM.bind readUint32 fun _modifyDateTime =>
  PM.bind (skipBytes 16) fun _ =>
  PM.bind readUint32 fun _width =>
  PM.bind readUint32 fun _height =>
  PM.bind readUint32 fun _pinToPin =>
  PM.bind (skipBytes 2) fun _ =>
  PM.bind readUint16 fun _horizontalCount =>
  PM.bind readUint16 fun _verticalCount =>
  PM.bind (skipBytes 2) fun _ =>
  PM.bind readUint32 fun _horizontalWidth =>
  PM.bind readUint32 fun _verticalWidth =>
  PM.bind (skipBytes 48) fun _ =>
  PM.bind readUint32 fun _horizontalChar =>
  PM.bind (skipBytes 4) fun _ =>
  PM.bind readUint32 fun _horizontalAscending =>
  PM.bind readUint32 fun _verticalChar =>
  PM.bind (skipBytes 4) fun _ =>
  PM.bind readUint32 fun _verticalAscending =>
  PM.bind readUint32 fun _isMetric =>
  PM.bind readUint32 fun _borderDisplayed =>
  PM.bind readUint32 fun _borderPrinted =>
  PM.bind readUint32 fun _gridRefDisplayed =>
  PM.bind readUint32 fun _gridRefPrinted =>
  PM.bind readUint32 fun _titleblockDisplayed =>
  PM.bind readUint32 fun _titleblockPrinted =>
  PM.bind readUint32 fun _ansiGridRefs =>
  PM.bind readUint16 fun lenA =>
  PM.bind (repeatSkip 8 lenA) fun _ =>
  PM.bind readUint16 fun len0 =>
  PM.bind (repeatSkip 32 len0) fun _ =>
  PM.bind (skipBytes 2) fun _ =>
  PM.bind readUint16 fun len1 =>
  PM.bind (pageLen1Loop len1) fun _ =>
  PM.bind readUint16 fun len2 =>
  PM.bind (structLoop f ctx len2) fun _ =>
  PM.bind readUint16 fun len3 =>
  PM.bind (pageLen3Loop f ctx len3 true) fun _ =>
  PM.bind (skipBytes 10) fun _ =>
  PM.bind readUint16 fun lenX =>
  PM.bind (structLoop f ctx lenX) fun _ =>
  ensureEoF

/-- The net loop of `Parser::readHierarchy`
(src/Files/Hierarchy.cpp): a short type prefix, a preamble, a `u32`
database id and a zero-terminated net name per entry. -/
def hierarchyNetLoop (ctx : Ctx) : Nat → PM Unit
  | 0 => PM.pure ()
  | n + 1 =>
      PM.bind ( read_type_prefix_short ctx) fun _st =>
      PM.bind (readPreamble true) fun _ =>
      PM.bind readUint32 fun _dbId =>
      PM.bind readStringLenZeroTerm fun _name =>
      hierarchyNetLoop ctx n

/-- Embedding of `Parser::readHierarchy`
(src/src/Files/Hierarchy.cpp lines 13 to 43).  Note that this routine
returns without asserting end of file. -/
def readHierarchy (ctx : Ctx) : PM Bool :=
  PM.bind (skipBytes 9) fun _ =>
  PM.bind readStringLenZeroTerm fun _schematicName =>
  PM.bind (skipBytes 9) fun _ =>
  PM.bind readUint16 fun netLen =>
  PM.bind (hierarchyNetLoop ctx netLen) fun _ =>
  PM.pure false

/-- The per-item loop of `StreamViewsDirectory::read`: name, component
type (unexpected values are only warned about), 14 opaque bytes, file
format version (unknown versions are only logged), timezone, 2 opaque
bytes. -/
def viewsDirItemLoop : Nat → PM Unit
  | 0 => PM.pure ()
  | n + 1 =>
      PM.bind readStringLenZeroTerm fun _name =>
      PM.bind readUint16 fun ctRaw =>
      PM.bind (ToRawEnumM ctRaw) fun _componentType =>
      PM.bind (skipBytes 14) fun _ =>
      PM.bind readUint16 fun _fileFormatVersion =>
      PM.bind readInt16 fun _timezone =>
      PM.bind (skipBytes 2) fun _ =>
      viewsDirItemLoop n

/-- Embedding of `StreamViewsDirectory::read`
(src/src/Streams/StreamViewsDirectory.cpp lines 12 to 67): the
last-modified date, the `u16` item count, the item loop and the final
end-of-file assertion. -/
def streamViewsDirectoryRead : PM Unit :=
  PM.bind readUint32 fun _lastModifiedDate =>
  PM.bind readUint16 fun size =>
  PM.bind (viewsDirItemLoop size) fun _ =>
  ensureEoF

/-! ## Library assembler (parseFile and the package and symbol loops of
parseLibrary) -/

/-- Per-run counters `mFileCtr` and `mFileErrCtr` of the `Parser`. -/
structure RunState where
  fileCtr : Nat
  fileErrCtr : Nat
deriving Repr, DecidableEq

/-- Embedding of the `Parser::parseFile` template (Parser.hpp lines 115
to 135): the object is default-constructed, the file counter is always
incremented, the parse function is attempted, and on any exception
`exceptionHandling` increments the error counter and the default object
is returned, so the run continues. -/
def parseFile (dflt : α) (result : Except PErr α) (s : RunState) : α × RunState :=
  match result with
  | .ok a => (a, ⟨s.fileCtr + 1, s.fileErrCtr⟩)
  | .error _ => (dflt, ⟨s.fileCtr + 1, s.fileErrCtr + 1⟩)

/-- A sequence of `parseFile` calls whose results are appended in
order to an accumulator, as `parseLibrary` appends each parsed package
to `mLibrary.packages`. -/
def parseFileFold (dflt : α) : List (Except PErr α) → List α → RunState → List α × RunState
  | [], acc, s => (acc, s)
  | r :: rest, acc, s =>
      let (a, s₁) := parseFile dflt r s
      parseFileFold dflt rest (acc ++ [a]) s₁

/-- Embedding of the package and symbol loops of
`Parser::parseLibrary` (part_000 lines 197 to 207): every package
stream and then every symbol stream is parsed through `parseFile` and
the result - parsed or default - is pushed onto `mLibrary.packages`. -/
def parseLibraryPackages (dflt : α) (pkgResults symResults : List (Except PErr α))
    (s : RunState) : List α × RunState :=
  let (l₁, s₁) := parseFileFold dflt pkgResults [] s
  parseFileFold dflt symResults l₁ s₁

end O2CP

namespace O2CP

/-! ## Symbolic execution lemmas for the primitives -/

/-- Little-endian two-byte encoding of a 16-bit value. -/
def u16le (v : Nat) : List Nat := [v % 256, v / 256]

/-- Little-endian four-byte encoding of a 32-bit value. -/
def u32le (v : Nat) : List Nat :=
  [v % 256, v / 256 % 256, v / 65536 % 256, v / 16777216]

theorem skipBytes_append (b rest : List Nat) (p o : Nat) :
    skipBytes b.length ⟨b ++ rest, p, o⟩ = .ok ((), ⟨rest, p + b.length, o⟩) := by
  induction b generalizing p with
  | nil => simp [skipBytes]
  | cons x xs ih =>
      simp only [List.length_cons, skipBytes, List.cons_append, PM.bind, readUint8_cons]
      rw [ih]
      have h2 : p + 1 + xs.length = p + (xs.length + 1) := by omega
      rw [h2]

theorem skipBytes_of_length (n : Nat) (b rest : List Nat) (p o : Nat)
    (h : b.length = n) :
    skipBytes n ⟨b ++ rest, p, o⟩ = .ok ((), ⟨rest, p + n, o⟩) := by
  subst h
  exact skipBytes_append b rest p o

theorem assumeData_exact (xs rest : List Nat) (p o : Nat) :
    assumeData xs ⟨xs ++ rest, p, o⟩ = .ok ((), ⟨rest, p + xs.length, o⟩) := by
  induction xs generalizing p with
  | nil => simp [assumeData]
  | cons x xs ih =>
      simp only [List.length_cons, assumeData, List.cons_append, PM.bind, readUint8_cons]
      simp only [if_true]
      rw [ih]
      have h2 : p + 1 + xs.length = p + (xs.length + 1) := by omega
      rw [h2]

theorem takeZstr_append (nm rest : List Nat) (h : 0 ∉ nm) :
    takeZstr (nm ++ 0 :: rest) = some (nm, rest) := by
  induction nm with
  | nil => simp [takeZstr]
  | cons b bs ih =>
      have hb : b ≠ 0 := by
        intro hb
        exact h (hb ▸ List.mem_cons_self b bs)
      have hbs : 0 ∉ bs := fun hm => h (List.mem_cons_of_mem b hm)
      simp [takeZstr, hb, ih hbs]

theorem readZstr_append (nm rest : List Nat) (p o : Nat) (h : 0 ∉ nm) :
    readStringLenZeroTerm ⟨nm ++ 0 :: rest, p, o⟩ =
      .ok (nm, ⟨rest, p + nm.length + 1, o⟩) := by
  simp [readStringLenZeroTerm, takeZstr_append nm rest h]

theorem readUint16_le (v : Nat) (rest : List Nat) (p o : Nat) :
    readUint16 ⟨u16le v ++ rest, p, o⟩ = .ok (v, ⟨rest, p + 2, o⟩) := by
  simp only [readUint16, u16le, List.cons_append, List.nil_append, PM.bind,
    readUint8_cons, PM.pure]
  have h1 : v % 256 + 256 * (v / 256) = v := by omega
  have h2 : p + 1 + 1 = p + 2 := by omega
  rw [h1, h2]

theorem readUint32_le (v : Nat) (rest : List Nat) (p o : Nat) :
    readUint32 ⟨u32le v ++ rest, p, o⟩ = .ok (v, ⟨rest, p + 4, o⟩) := by
  simp only [readUint32, u32le, List.cons_append, List.nil_append, PM.bind,
    readUint8_cons, PM.pure]
  have h1 : v % 256 + 256 * (v / 256 % 256) + 65536 * (v / 65536 % 256) +
      16777216 * (v / 16777216) = v := by omega
  have h2 : p + 1 + 1 + 1 + 1 = p + 4 := by omega
  rw [h1, h2]

theorem readInt16_le (v : Nat) (rest : List Nat) (p o : Nat) :
    readInt16 ⟨u16le v ++ rest, p, o⟩ = .ok (toSigned 16 v, ⟨rest, p + 2, o⟩) := by
  simp only [readInt16, PM.bind]
  rw [readUint16_le]
  rfl

theorem readInt32_le (v : Nat) (rest : List Nat) (p o : Nat) :
    readInt32 ⟨u32le v ++ rest, p, o⟩ = .ok (toSigned 32 v, ⟨rest, p + 4, o⟩) := by
  simp only [readInt32, PM.bind]
  rw [readUint32_le]
  rfl

end O2CP

namespace O2CP

@[simp] theorem PM.bind_assoc (m : PM α) (f : α → PM β) (g : β → PM γ) :
    PM.bind (PM.bind m f) g = PM.bind m fun a => PM.bind (f a) g := by
  funext s
  simp only [PM.bind]
  cases m s with
  | ok v => rfl
  | error e => rfl

@[simp] theorem PM.bind_pure_unit (m : PM Unit) :
    PM.bind m (fun _ => PM.pure ()) = m := by
  funext s
  simp only [PM.bind]
  cases h : m s with
  | ok v =>
      obtain ⟨a, s₁⟩ := v
      cases a
      rfl
  | error e => rfl

/-! ## Helpers for the library assembler claims -/

/-- The value `parseFile` hands back: the parsed object on success, the
default-constructed object on failure. -/
def settle (dflt : α) : Except PErr α → α
  | .ok a => a
  | .error _ => dflt

/-- Number of failing streams among a list of per-stream outcomes. -/
def errCount (rs : List (Except PErr α)) : Nat :=
  rs.countP fun r => match r with
    | .ok _ => false
    | .error _ => true

theorem parseFileFold_fst (dflt : α) (rs : List (Except PErr α)) (acc : List α)
    (s : RunState) :
    (parseFileFold dflt rs acc s).1 = acc ++ rs.map (settle dflt) := by
  induction rs generalizing acc s with
  | nil => simp [parseFileFold]
  | cons r rest ih =>
      cases r with
      | ok a => simp [parseFileFold, parseFile, settle, ih]
      | error e => simp [parseFileFold, parseFile, settle, ih]

theorem parseFileFold_snd (dflt : α) (rs : List (Except PErr α)) (acc : List α)
    (s : RunState) :
    (parseFileFold dflt rs acc s).2 =
      ⟨s.fileCtr + rs.length, s.fileErrCtr + errCount rs⟩ := by
  induction rs generalizing acc s with
  | nil => simp [parseFileFold, errCount]
  | cons r rest ih =>
      cases r with
      | ok a =>
          simp only [parseFileFold, parseFile, ih, errCount, List.countP_cons]
          simp [errCount, List.length_cons]
          omega
      | error e =>
          simp only [parseFileFold, parseFile, ih, errCount, List.countP_cons]
          simp [errCount, List.length_cons]
          omega

theorem parseLibraryPackages_fst (dflt : α) (pkgRs symRs : List (Except PErr α))
    (s : RunState) :
    (parseLibraryPackages dflt pkgRs symRs s).1 =
      pkgRs.map (settle dflt) ++ symRs.map (settle dflt) := by
  simp [parseLibraryPackages, parseFileFold_fst]

theorem parseLibraryPackages_snd (dflt : α) (pkgRs symRs : List (Except PErr α))
    (s : RunState) :
    (parseLibraryPackages dflt pkgRs symRs s).2 =
      ⟨s.fileCtr + pkgRs.length + symRs.length,
       s.fileErrCtr + errCount pkgRs + errCount symRs⟩ := by
  simp only [parseLibraryPackages]
  rw [parseFileFold_snd]
  rw [parseFileFold_snd]

end O2CP

namespace O2CP

/-- Claim C2: for every stream whose parse raises an error, the error
is caught inside `parseFile`, `fileErrCtr` is incremented by one, and
the run continues so that the library retains the results of all
previously successful streams; with exactly the failing streams
contributing to the counter, a run in which one of many symbol streams
fails completes with `fileErrCtr` equal to one. -/
theorem claim_C2 {α : Type} (dflt : α) (pkgRs symRs : List (Except PErr α))
    (s₀ : RunState) :
    ((parseLibraryPackages dflt pkgRs symRs s₀).2).fileErrCtr =
        s₀.fileErrCtr + errCount pkgRs + errCount symRs ∧
    ((parseLibraryPackages dflt pkgRs symRs s₀).2).fileCtr =
        s₀.fileCtr + pkgRs.length + symRs.length ∧
    (∀ i a, pkgRs.get? i = some (.ok a) →
        ((parseLibraryPackages dflt pkgRs symRs s₀).1).get? i = some a) ∧
    (∀ i a, symRs.get? i = some (.ok a) →
        ((parseLibraryPackages dflt pkgRs symRs s₀).1).get? (pkgRs.length + i) =
          some a) := by
  refine ⟨?_, ?_, ?_, ?_⟩
  · rw [parseLibraryPackages_snd]
  · rw [parseLibraryPackages_snd]
  · intro i a h
    rw [parseLibraryPackages_fst]
    have hi : i < pkgRs.length := by
      by_contra hge
      rw [List.get?_eq_none.mpr (by omega)] at h
      exact Option.noConfusion h
    rw [List.get?_append (by simpa using hi)]
    rw [List.get?_map, h]
    rfl
  · intro i a h
    rw [parseLibraryPackages_fst]
    rw [List.get?_append_right (by simp)]
    simp only [List.length_map]
    have : pkgRs.length + i - pkgRs.length = i := by omega
    rw [this, List.get?_map, h]
    rfl

/-- Witness for claim C2: with no package streams and three symbol
streams of which exactly the second fails, the run ends with
`fileErrCtr` equal to one and the first symbol is retained. -/
theorem claim_C2_witness :
    ((parseLibraryPackages 0 ([] : List (Except PErr Nat))
        [.ok 7, .error .truncated, .ok 9] ⟨0, 0⟩).2).fileErrCtr = 1 ∧
    ((parseLibraryPackages 0 ([] : List (Except PErr Nat))
        [.ok 7, .error .truncated, .ok 9] ⟨0, 0⟩).1).get? 0 = some 7 := by
  have h := claim_C2 (0 : Nat) [] [.ok 7, .error .truncated, .ok 9] ⟨0, 0⟩
  refine ⟨?_, ?_⟩
  · rw [h.1]
    decide
  · exact h.2.2.2 0 7 rfl

/-- Claim C10: when a package or symbol stream fails, `parseFile`
returns the default-constructed object and `parseLibrary` still appends
it, so the package list always has one entry per package or symbol
stream, failed streams contributing the default entry. -/
theorem claim_C10 {α : Type} (dflt : α) (pkgRs symRs : List (Except PErr α))
    (s₀ : RunState) :
    ((parseLibraryPackages dflt pkgRs symRs s₀).1).length =
        pkgRs.length + symRs.length ∧
    (∀ i e, pkgRs.get? i = some (.error e) →
        ((parseLibraryPackages dflt pkgRs symRs s₀).1).get? i = some dflt) ∧
    (∀ i e, symRs.get? i = some (.error e) →
        ((parseLibraryPackages dflt pkgRs symRs s₀).1).get? (pkgRs.length + i) =
          some dflt) := by
  refine ⟨?_, ?_, ?_⟩
  · rw [parseLibraryPackages_fst]
    simp
  · intro i e h
    rw [parseLibraryPackages_fst]
    have hi : i < pkgRs.length := by
      by_contra hge
      rw [List.get?_eq_none.mpr (by omega)] at h
      exact Option.noConfusion h
    rw [List.get?_append (by simpa using hi)]
    rw [List.get?_map, h]
    rfl
  · intro i e h
    rw [parseLibraryPackages_fst]
    rw [List.get?_append_right (by simp)]
    simp only [List.length_map]
    have : pkgRs.length + i - pkgRs.length = i := by omega
    rw [this, List.get?_map, h]
    rfl

/-- Witness for claim C10: one failing package stream and one failing
symbol stream out of three streams still produce a three-entry package
list with defaults at the failed positions. -/
theorem claim_C10_witness :
    ((parseLibraryPackages 0 ([.error .truncated] : List (Except PErr Nat))
        [.ok 7, .error .invariant] ⟨0, 0⟩).1).length = 3 ∧
    ((parseLibraryPackages 0 ([.error .truncated] : List (Except PErr Nat))
        [.ok 7, .error .invariant] ⟨0, 0⟩).1).get? 2 = some 0 := by
  have h := claim_C10 (0 : Nat) [.error .truncated] [.ok 7, .error .invariant] ⟨0, 0⟩
  refine ⟨?_, ?_⟩
  · rw [h.1]
    decide
  · exact h.2.2 1 .invariant rfl

@[simp] theorem PM.ite_bind (c : Prop) [Decidable c] (a b : PM α) (f : α → PM β) :
    PM.bind (if c then a else b) f = if c then PM.bind a f else PM.bind b f := by
  split <;> rfl

/-- Claim C9: in `parseGeometrySpecification`, each geometry-loop
iteration behaves per file format version as the spec states - version
`A` consumes exactly 8 trailing opaque bytes after every primitive and
never re-reads prefix or preamble, version `B` re-reads a type prefix
and a preamble before every subsequent primitive with no trailing
bytes, and version `C` re-reads only a preamble before every subsequent
primitive with no trailing bytes. -/
theorem claim_C9 (ctx : Ctx) (subsequent : Bool) (s : PState) :
    geomIter ctx subsequent s = geomIterSpec ctx subsequent s := by
  obtain ⟨lib, ver, leaf, mr⟩ := ctx
  cases ver <;> cases subsequent <;>
    simp [geomIter, geomIterSpec, FileFormatVersion.atLeast, FileFormatVersion.toNat,
      readGeometryStructure]

end O2CP

namespace O2CP

/-- A concrete context used by closed runs: empty library, version C,
leaf readers that consume nothing. -/
def ctx0 : Ctx := ⟨⟨[], []⟩, .C, fun _ => PM.pure (), fun _ => PM.pure ()⟩

theorem read_type_prefix_short_run (ctx : Ctx) (t r : Nat) (st sr : Structure)
    (rest : List Nat) (p o : Nat)
    (ht : ToStructure t = some st) (hr : ToStructure r = some sr) :
    read_type_prefix_short ctx
        ⟨t :: 0x0b :: 0 :: 0 :: 0 :: 0 :: 0 :: 0 :: 0 :: r :: 0xff :: 0xff :: rest,
         p, o⟩ =
      .ok (st, ⟨rest, p + 12, o⟩) := by
  simp only [read_type_prefix_short, PM.bind, readUint8_cons, ToStructureM, ht, hr,
    PM.pure, readUint32, readInt16, readUint16, skipBytes, toSigned]
  norm_num

end O2CP

namespace O2CP

/-- Claim C1 as stated is false: `read_type_prefix_short` accepts a
prefix whose leading tag `0x10` differs from its repeated tag `0x1f`
without raising any error. -/
theorem claim_C1_counterexample :
    read_type_prefix_short ctx0
        ⟨[0x10, 0x0b, 0, 0, 0, 0, 0, 0, 0, 0x1f, 0xff, 0xff], 0, 0⟩ =
      .ok (Structure.T0x10, ⟨[], 12, 0⟩) := by
  have h := read_type_prefix_short_run ctx0 0x10 0x1f Structure.T0x10 Structure.T0x1f
    [] 0 0 rfl rfl
  simpa using h

/-- Claim C1, amended: read_type_prefix and read_type_prefix_long
succeed exactly when the leading tag equals the tag of the embedded
short form and fail with `TagMismatch` otherwise, while
`read_type_prefix_short` returns its leading tag without comparing the
repeated tag inside the short form, so a mismatched inner pair is not
rejected. -/
theorem claim_C1_amended (ctx : Ctx) (t r : Nat) (st sr : Structure)
    (ht : ToStructure t = some st) (hr : ToStructure r = some sr) :
    (∀ b0 b1 b2 b3 rest p o,
      read_type_prefix ctx
          ⟨t :: b0 :: b1 :: b2 :: b3 :: 0 :: 0 :: 0 :: 0 ::
             r :: 0x0b :: 0 :: 0 :: 0 :: 0 :: 0 :: 0 :: 0 :: r :: 0xff :: 0xff :: rest,
           p, o⟩ =
        if st = sr then
          .ok (st, ⟨rest, p + 21, b0 + 256 * b1 + 65536 * b2 + 16777216 * b3⟩)
        else .error .tagMismatch) ∧
    (∀ x0 x1 rest p o,
      read_type_prefix_long ctx
          ⟨t :: x0 :: x1 :: 0 :: 0 :: 0 :: 0 :: 0 :: 0 ::
             r :: 0 :: 0 :: 0 :: 0 :: 0 :: 0 :: 0 :: 0 ::
             r :: 0x0b :: 0 :: 0 :: 0 :: 0 :: 0 :: 0 :: 0 :: r :: 0xff :: 0xff :: rest,
           p, o⟩ =
        if st = sr then .ok (st, ⟨rest, p + 30, 0⟩)
        else .error .tagMismatch) ∧
    (∀ rest p o,
      read_type_prefix_short ctx
          ⟨t :: 0x0b :: 0 :: 0 :: 0 :: 0 :: 0 :: 0 :: 0 :: r :: 0xff :: 0xff :: rest,
           p, o⟩ =
        .ok (st, ⟨rest, p + 12, o⟩)) := by
  refine ⟨?_, ?_, ?_⟩
  · intro b0 b1 b2 b3 rest p o
    by_cases hsr : st = sr <;>
      simp [ read_type_prefix, PM.bind_apply, ToStructureM, ht, hr, readUint32,
        assumeData, PM.pure, PM.fail, setByteOffset_apply, hsr,
        read_type_prefix_short_run ctx r r sr sr rest]
  · intro x0 x1 rest p o
    by_cases hsr : st = sr <;>
      simp [read_type_prefix_long, read_type_prefix, PM.bind_apply, ToStructureM,
        ht, hr, readUint32, assumeData, skipBytes, PM.pure, PM.fail,
        setByteOffset_apply, hsr,
        read_type_prefix_short_run ctx r r sr sr rest]
  · intro rest p o
    exact read_type_prefix_short_run ctx t r st sr rest p o ht hr

/-- Witness for the amended claim C1: at valid distinct tags `0x10`
and `0x1f` the standard prefix is rejected with `TagMismatch`, and at
equal tags `0x10` it succeeds. -/
theorem claim_C1_witness :
    read_type_prefix ctx0
        ⟨0x10 :: 0 :: 0 :: 0 :: 0 :: 0 :: 0 :: 0 :: 0 ::
           0x1f :: 0x0b :: 0 :: 0 :: 0 :: 0 :: 0 :: 0 :: 0 :: 0x1f :: 0xff :: 0xff :: [],
         0, 0⟩ = .error .tagMismatch ∧
    read_type_prefix ctx0
        ⟨0x10 :: 0 :: 0 :: 0 :: 0 :: 0 :: 0 :: 0 :: 0 ::
           0x10 :: 0x0b :: 0 :: 0 :: 0 :: 0 :: 0 :: 0 :: 0 :: 0x10 :: 0xff :: 0xff :: [],
         0, 0⟩ = .ok (Structure.T0x10, ⟨[], 21, 0⟩) := by
  constructor
  · have h := (claim_C1_amended ctx0 0x10 0x1f Structure.T0x10 Structure.T0x1f
      rfl rfl).1 0 0 0 0 [] 0 0
    simpa using h
  · have h := (claim_C1_amended ctx0 0x10 0x10 Structure.T0x10 Structure.T0x10
      rfl rfl).1 0 0 0 0 [] 0 0
    simpa using h

end O2CP

namespace O2CP

/-- Claim C5: `readProperties` reads `viewNumber` as a `u16` and
branches on it - `viewNumber = 1` omits `convertName`,
`viewNumber = 2` reads it, any other value raises an error - and in
the non-error cases it then reads the record name followed by 29
opaque bytes. -/
theorem claim_C5 (ref nm : List Nat) (href : 0 ∉ ref) (hnm : 0 ∉ nm)
    (t29 : List Nat) (h29 : t29.length = 29) (rest : List Nat) (p o : Nat) :
    (readProperties
        ⟨ref ++ 0 :: 0 :: 0 :: 0 :: (u16le 1 ++ (nm ++ 0 :: (t29 ++ rest))), p, o⟩ =
      .ok (⟨ref, none, nm⟩,
        ⟨rest, p + ref.length + 1 + 3 + 2 + nm.length + 1 + 29, o⟩)) ∧
    (∀ cv, 0 ∉ cv → readProperties
        ⟨ref ++ 0 :: 0 :: 0 :: 0 ::
           (u16le 2 ++ (cv ++ 0 :: (nm ++ 0 :: (t29 ++ rest)))), p, o⟩ =
      .ok (⟨ref, some cv, nm⟩,
        ⟨rest, p + ref.length + 1 + 3 + 2 + cv.length + 1 + nm.length + 1 + 29, o⟩)) ∧
    (∀ v tail, v ≠ 1 → v ≠ 2 → readProperties
        ⟨ref ++ 0 :: 0 :: 0 :: 0 :: (u16le v ++ tail), p, o⟩ = .error .invariant) := by
  refine ⟨?_, ?_, ?_⟩
  · simp only [readProperties, PM.bind_apply,
      readZstr_append ref _ p o href]
    rw [show (0 : Nat) :: 0 :: 0 :: (u16le 1 ++ (nm ++ 0 :: (t29 ++ rest))) =
      [0, 0, 0] ++ (u16le 1 ++ (nm ++ 0 :: (t29 ++ rest))) from rfl]
    simp only [assumeData_exact, readUint16_le, PM.pure_apply, List.length_cons,
      List.length_nil]
    norm_num [PM.bind_apply, readZstr_append _ _ _ _ hnm,
      skipBytes_of_length 29 t29 rest, h29, PM.pure]
  · intro cv hcv
    simp only [readProperties, PM.bind_apply,
      readZstr_append ref _ p o href]
    rw [show (0 : Nat) :: 0 :: 0 ::
        (u16le 2 ++ (cv ++ 0 :: (nm ++ 0 :: (t29 ++ rest)))) =
      [0, 0, 0] ++ (u16le 2 ++ (cv ++ 0 :: (nm ++ 0 :: (t29 ++ rest)))) from rfl]
    simp only [assumeData_exact, readUint16_le, PM.pure_apply, List.length_cons,
      List.length_nil]
    norm_num [PM.bind_apply, readZstr_append _ _ _ _ hcv, readZstr_append _ _ _ _ hnm,
      skipBytes_of_length 29 t29 rest, h29, PM.pure]
  · intro v tail hv1 hv2
    simp only [readProperties, PM.bind_apply,
      readZstr_append ref _ p o href]
    rw [show (0 : Nat) :: 0 :: 0 :: (u16le v ++ tail) =
      [0, 0, 0] ++ (u16le v ++ tail) from rfl]
    simp only [assumeData_exact, readUint16_le, PM.pure_apply, hv1, hv2, if_false,
      PM.fail]

end O2CP

namespace O2CP

/-- Witness for claim C5: a concrete `Properties` record with view
number 1 parses without a convert name, and one with view number 3 is
rejected. -/
theorem claim_C5_witness :
    readProperties ⟨[0x41, 0, 0, 0, 0, 1, 0, 0x4e, 0] ++ List.replicate 29 0, 0, 0⟩ =
      .ok (⟨[0x41], none, [0x4e]⟩, ⟨[], 38, 0⟩) ∧
    readProperties ⟨[0x41, 0, 0, 0, 0, 3, 0], 0, 0⟩ = .error .invariant := by
  constructor
  · exact (claim_C5 [0x41] [0x4e] (by decide) (by decide) (List.replicate 29 0)
      (by decide) [] 0 0).1
  · exact (claim_C5 [0x41] [0x4e] (by decide) (by decide) (List.replicate 29 0)
      (by decide) [] 0 0).2.2 3 [] (by decide) (by decide)

/-- Serialisation of a pin list as `readPinIdxMapping` consumes it:
each pin is its zero-terminated name followed by its separator byte. -/
def pinBytes : List (List Nat × Nat) → List Nat
  | [] => []
  | (nm, sep) :: ps => nm ++ 0 :: sep :: pinBytes ps

/-- A separator byte the parser accepts. -/
def sepOk (sep : Nat) : Prop := sep = 0x7f ∨ sep = 0xaa ∨ sep = 0xff

instance (sep : Nat) : Decidable (sepOk sep) := by
  unfold sepOk
  infer_instance

theorem readPins_ok (ps : List (List Nat × Nat))
    (hz : ∀ pr ∈ ps, 0 ∉ pr.1) (hs : ∀ pr ∈ ps, sepOk pr.2)
    (rest : List Nat) (p o : Nat) :
    readPins ps.length ⟨pinBytes ps ++ rest, p, o⟩ =
      .ok (ps.map Prod.fst, ⟨rest, p + (pinBytes ps).length, o⟩) := by
  induction ps generalizing p with
  | nil => simp [readPins, pinBytes, PM.pure]
  | cons pr ps ih =>
      obtain ⟨nm, sep⟩ := pr
      have hnm : 0 ∉ nm := hz (nm, sep) (List.mem_cons_self _ _)
      have hsep : sepOk sep := hs (nm, sep) (List.mem_cons_self _ _)
      have hzr : ∀ pr ∈ ps, 0 ∉ pr.1 := fun q hq => hz q (List.mem_cons_of_mem _ hq)
      have hsr : ∀ pr ∈ ps, sepOk pr.2 := fun q hq => hs q (List.mem_cons_of_mem _ hq)
      simp only [List.length_cons, readPins, pinBytes, PM.bind_apply, List.cons_append,
        List.append_assoc, readZstr_append nm _ _ _ hnm, readUint8_cons,
        if_pos (show sep = 0x7f ∨ sep = 0xaa ∨ sep = 0xff from hsep),
        ih hzr hsr, PM.pure, List.map_cons]
      norm_num [List.length_append]
      omega

theorem readPins_err (good : List (List Nat × Nat)) (bad : List Nat × Nat)
    (tail : List (List Nat × Nat))
    (hz : ∀ pr ∈ good, 0 ∉ pr.1) (hs : ∀ pr ∈ good, sepOk pr.2)
    (hbnm : 0 ∉ bad.1) (hbad : ¬ sepOk bad.2)
    (rest : List Nat) (p o : Nat) :
    readPins (good ++ bad :: tail).length
        ⟨pinBytes (good ++ bad :: tail) ++ rest, p, o⟩ = .error .invariant := by
  induction good generalizing p with
  | nil =>
      obtain ⟨nm, sep⟩ := bad
      have hb1 : 0 ∉ nm := hbnm
      have hb2 : ¬ (sep = 0x7f ∨ sep = 0xaa ∨ sep = 0xff) := hbad
      simp only [List.nil_append, List.length_cons, readPins, pinBytes,
        PM.bind_apply, List.append_assoc, List.cons_append,
        readZstr_append nm (sep :: (pinBytes tail ++ rest)) p o hb1,
        readUint8_cons]
      rw [if_neg hb2]
      rfl
  | cons pr good ih =>
      obtain ⟨nm, sep⟩ := pr
      have hnm : 0 ∉ nm := hz (nm, sep) (List.mem_cons_self _ _)
      have hsep : sepOk sep := hs (nm, sep) (List.mem_cons_self _ _)
      have hzr : ∀ q ∈ good, 0 ∉ q.1 := fun q hq => hz q (List.mem_cons_of_mem _ hq)
      have hsr : ∀ q ∈ good, sepOk q.2 := fun q hq => hs q (List.mem_cons_of_mem _ hq)
      simp only [List.cons_append, List.length_cons, readPins, pinBytes,
        PM.bind_apply, List.append_assoc, readZstr_append nm _ _ _ hnm,
        readUint8_cons,
        if_pos (show sep = 0x7f ∨ sep = 0xaa ∨ sep = 0xff from hsep)]
      simp only [List.append_eq]
      rw [ih hzr hsr]

/-- Claim C6: `readPinIdxMapping` reads `unitRef`, `refDes`, a `u16`
pin count and per pin a zero-terminated name plus separator byte; it
succeeds exactly on separators among `0x7F`, `0xAA`, `0xFF`, yielding
the pin names, and fails at the first separator outside that set. -/
theorem claim_C6 (u r : List Nat) (hu : 0 ∉ u) (hr : 0 ∉ r)
    (ps : List (List Nat × Nat)) (rest : List Nat) (p o : Nat) :
    ((∀ pr ∈ ps, 0 ∉ pr.1) → (∀ pr ∈ ps, sepOk pr.2) →
      readPinIdxMapping
          ⟨u ++ 0 :: (r ++ 0 :: (u16le ps.length ++ (pinBytes ps ++ rest))), p, o⟩ =
        .ok (⟨u, r, ps.map Prod.fst⟩,
          ⟨rest, p + u.length + 1 + r.length + 1 + 2 + (pinBytes ps).length, o⟩)) ∧
    (∀ good bad tail, ps = good ++ bad :: tail →
      (∀ pr ∈ good, 0 ∉ pr.1) → (∀ pr ∈ good, sepOk pr.2) →
      0 ∉ bad.1 → ¬ sepOk bad.2 →
      readPinIdxMapping
          ⟨u ++ 0 :: (r ++ 0 :: (u16le ps.length ++ (pinBytes ps ++ rest))), p, o⟩ =
        .error .invariant) := by
  constructor
  · intro hz hs
    simp only [readPinIdxMapping, PM.bind_apply, readZstr_append u _ _ _ hu,
      readZstr_append r _ _ _ hr, readUint16_le, readPins_ok ps hz hs rest, PM.pure]
  · intro good bad tail hsplit hz hs hbnm hbad
    subst hsplit
    simp only [readPinIdxMapping, PM.bind_apply, readZstr_append u _ _ _ hu,
      readZstr_append r _ _ _ hr, readUint16_le,
      readPins_err good bad tail hz hs hbnm hbad rest]

/-- Witness for claim C6: the pin map of the spec example - unit
reference `U1`, designator `U?`, pins `1`, `2`, `3` with separators
`0x7F` - parses to those names, and replacing the last separator by
`0x42` fails. -/
theorem claim_C6_witness :
    readPinIdxMapping
        ⟨[0x55, 0x31, 0, 0x55, 0x3f, 0, 3, 0,
          0x31, 0, 0x7f, 0x32, 0, 0x7f, 0x33, 0, 0x7f], 0, 0⟩ =
      .ok (⟨[0x55, 0x31], [0x55, 0x3f], [[0x31], [0x32], [0x33]]⟩, ⟨[], 17, 0⟩) ∧
    readPinIdxMapping
        ⟨[0x55, 0x31, 0, 0x55, 0x3f, 0, 3, 0,
          0x31, 0, 0x7f, 0x32, 0, 0x7f, 0x33, 0, 0x42], 0, 0⟩ =
      .error .invariant := by
  constructor
  · exact (claim_C6 [0x55, 0x31] [0x55, 0x3f] (by decide) (by decide)
      [([0x31], 0x7f), ([0x32], 0x7f), ([0x33], 0x7f)] [] 0 0).1
      (by decide) (by decide)
  · exact (claim_C6 [0x55, 0x31] [0x55, 0x3f] (by decide) (by decide)
      [([0x31], 0x7f), ([0x32], 0x7f), ([0x33], 0x42)] [] 0 0).2
      [([0x31], 0x7f), ([0x32], 0x7f)] ([0x33], 0x42) [] rfl
      (by decide) (by decide) (by decide) (by decide)

end O2CP

namespace O2CP

/-- Claim C3: `readSymbolDisplayProp` decodes the packed word as
`textFontIdx = packed mod 256`, reserved bits `(packed / 256) mod 64`
and `rotation = packed / 16384`; it fails when the reserved bits are
nonzero or `textFontIdx` exceeds the text-font table length, succeeds
with the decoded fields when both conditions hold on a well-formed
record, and every successful parse satisfies the bound and decodes a
two-bit rotation. -/
theorem claim_C3 (ctx : Ctx) (k xv yv packed col e1 e2 : Nat)
    (rest : List Nat) (p o : Nat)
    (hk1 : 1 ≤ k) (hk32 : k < 4294967296)
    (hkin : k - 1 < ctx.lib.strLst.length) (hpacked : packed < 65536) :
    ((packed / 256) % 64 = 0 → packed % 256 ≤ ctx.lib.textFonts.length →
      readSymbolDisplayProp ctx
          ⟨u32le k ++ (u16le xv ++ (u16le yv ++ (u16le packed ++
             (col :: e1 :: e2 :: 0 :: rest)))), p, o⟩ =
        .ok (⟨k, toSigned 16 xv, toSigned 16 yv, packed % 256, packed / 16384, col⟩,
          ⟨rest, p + 14, o⟩)) ∧
    (packed % 256 > ctx.lib.textFonts.length →
      readSymbolDisplayProp ctx
          ⟨u32le k ++ (u16le xv ++ (u16le yv ++ (u16le packed ++
             (col :: e1 :: e2 :: 0 :: rest)))), p, o⟩ = .error .outOfRange) ∧
    (packed % 256 ≤ ctx.lib.textFonts.length → (packed / 256) % 64 ≠ 0 →
      readSymbolDisplayProp ctx
          ⟨u32le k ++ (u16le xv ++ (u16le yv ++ (u16le packed ++
             (col :: e1 :: e2 :: 0 :: rest)))), p, o⟩ = .error .invariant) ∧
    (∀ s obj s₂, readSymbolDisplayProp ctx s = .ok (obj, s₂) →
      obj.textFontIdx ≤ ctx.lib.textFonts.length ∧ obj.rotation < 4) := by
  have hwrap : (k + 4294967295) % 4294967296 = k - 1 := by omega
  obtain ⟨str, hstr⟩ : ∃ str, ctx.lib.strLst.get? (k - 1) = some str :=
    ⟨_, List.get?_eq_get hkin⟩
  have hrot : packed / 16384 < 4 := by omega
  refine ⟨?_, ?_, ?_, ?_⟩
  · intro hres hfont
    simp only [readSymbolDisplayProp, PM.bind_apply, readUint32_le, readUint16_le,
      readInt16_le, sdpNameLookup, hwrap, hstr, PM.ofExcept, PM.pure,
      ToRotationM, ToRawEnumM, if_pos hrot, hres,
      if_neg (show ¬ packed % 256 > ctx.lib.textFonts.length by omega)]
    norm_num [skipBytes, PM.bind_apply, assumeData, PM.pure]
  · intro hfont
    simp only [readSymbolDisplayProp, PM.bind_apply, readUint32_le, readUint16_le,
      readInt16_le, sdpNameLookup, hwrap, hstr, PM.ofExcept, PM.pure,
      if_pos hfont, PM.fail]
  · intro hfont hres
    simp only [readSymbolDisplayProp, PM.bind_apply, readUint32_le, readUint16_le,
      readInt16_le, sdpNameLookup, hwrap, hstr, PM.ofExcept, PM.pure,
      if_neg (show ¬ packed % 256 > ctx.lib.textFonts.length by omega),
      if_pos hres, PM.fail]
  · intro s obj s₂ h
    simp only [readSymbolDisplayProp] at h
    repeat'
      first
      | split at h
      | simp only [PM.bind_apply, PM.ofExcept, PM.pure, PM.fail, ToRotationM,
          ToRawEnumM, skipBytes, assumeData, readUint8] at h
    all_goals try exact Except.noConfusion h
    rw [Except.ok.injEq, Prod.mk.injEq] at h
    obtain ⟨h1, h2⟩ := h
    subst h1
    refine ⟨?_, ?_⟩ <;> dsimp only <;> omega

end O2CP

namespace O2CP

/-- A concrete context with a one-entry string table and a three-entry
text-font table, as in the corresponding seed scenario of the spec. -/
def ctx3 : Ctx := ⟨⟨[[0x41]], [7, 8, 9]⟩, .C, fun _ => PM.pure (), fun _ => PM.pure ()⟩

/-- Witness for claim C3: against a three-entry font table, packed
word `0x0002` parses with `textFontIdx = 2` and rotation 0, while
packed word `0x0103` is rejected for its reserved bit. -/
theorem claim_C3_witness :
    readSymbolDisplayProp ctx3 ⟨[1, 0, 0, 0, 0, 0, 0, 0, 2, 0, 5, 0, 0, 0], 0, 0⟩ =
      .ok (⟨1, 0, 0, 2, 0, 5⟩, ⟨[], 14, 0⟩) ∧
    readSymbolDisplayProp ctx3 ⟨[1, 0, 0, 0, 0, 0, 0, 0, 3, 1, 5, 0, 0, 0], 0, 0⟩ =
      .error .invariant := by
  constructor
  · exact (claim_C3 ctx3 1 0 0 2 5 0 0 [] 0 0 (by decide) (by decide) (by decide)
      (by decide)).1 (by decide) (by decide)
  · exact (claim_C3 ctx3 1 0 0 0x0103 5 0 0 [] 0 0 (by decide) (by decide) (by decide)
      (by decide)).2.2.1 (by decide) (by decide)

end O2CP

namespace O2CP

/-- Claim C7 as stated is false: the string-table lookup in
`readSymbolDisplayProp` does not yield the empty string at index 0 -
the unsigned decrement wraps and the record is rejected with an
out-of-range error even though the string table is nonempty. -/
theorem claim_C7_counterexample :
    readSymbolDisplayProp ctx3 ⟨[0, 0, 0, 0], 0, 0⟩ = .error .outOfRange := rfl

/-- Claim C7, amended: the lookup helper of `read_type_prefix_short`
treats its index as 1-based with index 0 yielding the empty string and
index `k > 0` yielding element `k - 1`; the lookup in
`readSymbolDisplayProp` also yields element `k - 1` for `k > 0`, but
at index 0 it wraps modulo `2^32` and fails with an out-of-range error
instead of yielding the empty string. -/
theorem claim_C7_amended :
    (∀ lib : SymbolsLibrary, getStr lib 0 = .ok []) ∧
    (∀ (lib : SymbolsLibrary) (k : Nat) (h : k - 1 < lib.strLst.length), 1 ≤ k →
        getStr lib k = .ok (lib.strLst.get ⟨k - 1, h⟩)) ∧
    (∀ (lib : SymbolsLibrary) (k : Nat) (h : k - 1 < lib.strLst.length),
        1 ≤ k → k < 4294967296 →
        sdpNameLookup lib k = .ok (lib.strLst.get ⟨k - 1, h⟩)) ∧
    (∀ lib : SymbolsLibrary, lib.strLst.length < 4294967296 →
        sdpNameLookup lib 0 = .error .outOfRange) := by
  refine ⟨?_, ?_, ?_, ?_⟩
  · intro lib
    rfl
  · intro lib k h hk
    simp only [getStr, if_neg (by omega : ¬ k = 0), List.get?_eq_get h]
  · intro lib k h hk hk32
    have hwrap : (k + 4294967295) % 4294967296 = k - 1 := by omega
    simp only [sdpNameLookup, hwrap, List.get?_eq_get h]
  · intro lib hlen
    have : lib.strLst.get? ((0 + 4294967295) % 4294967296) = none :=
      List.get?_eq_none.mpr (by omega)
    simp only [sdpNameLookup, this]

/-- Witness for the amended claim C7: on a two-entry string table the
short-prefix lookup yields the empty string at 0 and the second entry
at 2, while the `readSymbolDisplayProp` lookup yields the second entry
at 2 but fails at 0. -/
theorem claim_C7_witness :
    getStr ⟨[[0x41], [0x42]], []⟩ 0 = .ok [] ∧
    getStr ⟨[[0x41], [0x42]], []⟩ 2 = .ok [0x42] ∧
    sdpNameLookup ⟨[[0x41], [0x42]], []⟩ 2 = .ok [0x42] ∧
    sdpNameLookup ⟨[[0x41], [0x42]], []⟩ 0 = .error .outOfRange := by
  refine ⟨claim_C7_amended.1 ⟨[[0x41], [0x42]], []⟩,
    claim_C7_amended.2.1 ⟨[[0x41], [0x42]], []⟩ 2 (by decide) (by decide),
    claim_C7_amended.2.2.1 ⟨[[0x41], [0x42]], []⟩ 2 (by decide) (by decide) (by decide),
    claim_C7_amended.2.2.2 ⟨[[0x41], [0x42]], []⟩ (by decide)⟩

end O2CP

namespace O2CP

/-- The fixed trailer of `readWireScalar`: 2 opaque bytes, the line
width and the line style. -/
def wsTrailer : PM Unit :=
  PM.bind (skipBytes 2) fun _ =>
  PM.bind readUint32 fun widthRaw =>
  PM.bind (ToRawEnumM widthRaw) fun _ =>
  PM.bind readUint32 fun styleRaw =>
  PM.bind (ToRawEnumM styleRaw) fun _ =>
  PM.pure ()

/-- Claim C4: after its fixed 29-byte body, `readWireScalar` branches
on the `byte_offset` recorded by the preceding standard prefix - less
than `0x3D` consumes nothing extra and goes straight to the trailer,
exactly `0x3D` consumes exactly 2 extra bytes, and greater than `0x3D`
reads a `u16` count and that many nested records through the central
dispatcher before the trailer. -/
theorem claim_C4 (f : Nat) (ctx : Ctx) (a c x1 y1 x2 y2 k1 k2 k3 k4 k5 : Nat)
    (rest : List Nat) (p o : Nat) :
    (o < 0x3d →
      readWireScalar (f + 1) ctx
          ⟨u32le a ++ (k1 :: k2 :: k3 :: k4 :: (u32le c ++ (u32le x1 ++ (u32le y1 ++
             (u32le x2 ++ (u32le y2 ++ (k5 :: rest))))))), p, o⟩ =
        wsTrailer ⟨rest, p + 29, o⟩) ∧
    (o = 0x3d → ∀ e1 e2,
      readWireScalar (f + 1) ctx
          ⟨u32le a ++ (k1 :: k2 :: k3 :: k4 :: (u32le c ++ (u32le x1 ++ (u32le y1 ++
             (u32le x2 ++ (u32le y2 ++ (k5 :: e1 :: e2 :: rest))))))), p, o⟩ =
        wsTrailer ⟨rest, p + 31, o⟩) ∧
    (0x3d < o → ∀ n,
      readWireScalar (f + 1) ctx
          ⟨u32le a ++ (k1 :: k2 :: k3 :: k4 :: (u32le c ++ (u32le x1 ++ (u32le y1 ++
             (u32le x2 ++ (u32le y2 ++ (k5 :: (u16le n ++ rest)))))))), p, o⟩ =
        PM.bind (structLoop f ctx n) (fun _ => wsTrailer) ⟨rest, p + 31, o⟩) := by
  refine ⟨?_, ?_, ?_⟩
  · intro ho
    simp only [readWireScalar, PM.bind_apply, readUint32_le, readInt32_le,
      readUint8_cons, ToRawEnumM, PM.pure, skipBytes, wsTrailer,
      if_neg (show ¬ o = 0x3d by omega), if_neg (show ¬ o > 0x3d by omega)]
  · intro ho e1 e2
    subst ho
    simp only [readWireScalar, PM.bind_apply, readUint32_le, readInt32_le,
      readUint8_cons, ToRawEnumM, PM.pure, skipBytes, wsTrailer, if_pos rfl]
    simp only [if_true, PM.bind_apply, readUint8_cons, PM.pure]
  · intro ho n
    simp only [readWireScalar, PM.bind_apply, readUint32_le, readInt32_le,
      readUint8_cons, ToRawEnumM, PM.pure, skipBytes, wsTrailer, readUint16_le,
      if_neg (show ¬ o = 0x3d by omega), if_pos (show o > 0x3d from ho)]

/-- Witness for claim C4: with all-zero bodies, byte offset 0 leaves
the trailer at offset 29, byte offset `0x3D` consumes two extra bytes,
and byte offset `0x3E` reads a zero count of nested records. -/
theorem claim_C4_witness :
    readWireScalar 1 ctx0 ⟨List.replicate 39 0, 0, 0⟩ =
      wsTrailer ⟨List.replicate 10 0, 29, 0⟩ ∧
    readWireScalar 1 ctx0 ⟨List.replicate 41 0, 0, 0x3d⟩ =
      wsTrailer ⟨List.replicate 10 0, 31, 0x3d⟩ ∧
    readWireScalar 1 ctx0 ⟨List.replicate 41 0, 0, 0x3e⟩ =
      PM.bind (structLoop 0 ctx0 0) (fun _ => wsTrailer)
        ⟨List.replicate 10 0, 31, 0x3e⟩ := by
  refine ⟨?_, ?_, ?_⟩
  · exact (claim_C4 0 ctx0 0 0 0 0 0 0 0 0 0 0 0 (List.replicate 10 0) 0 0).1
      (by decide)
  · exact (claim_C4 0 ctx0 0 0 0 0 0 0 0 0 0 0 0 (List.replicate 10 0) 0 0x3d).2.1
      rfl 0 0
  · exact (claim_C4 0 ctx0 0 0 0 0 0 0 0 0 0 0 0 (List.replicate 10 0) 0 0x3e).2.2
      (by decide) 0

end O2CP

namespace O2CP

/-- A parser computation whose every successful run ends with an empty
stream. -/
def EndsNil (m : PM α) : Prop :=
  ∀ s r s₂, m s = .ok (r, s₂) → s₂.bytes = []

theorem ends_ensureEoF : EndsNil ensureEoF := by
  intro s r s₂ h
  unfold ensureEoF at h
  by_cases hb : s.bytes.isEmpty
  · rw [if_pos hb] at h
    cases h
    simpa using hb
  · rw [if_neg hb] at h
    exact Except.noConfusion h

theorem ends_bind (m : PM α) (f : α → PM β) (h : ∀ a, EndsNil (f a)) :
    EndsNil (PM.bind m f) := by
  intro s r s₂ hb
  rw [PM.bind_apply] at hb
  cases hm : m s with
  | ok v => exact h v.1 v.2 r s₂ (by rw [hm] at hb; exact hb)
  | error e =>
      rw [hm] at hb
      exact Except.noConfusion hb

theorem parsePage_ends (f : Nat) (ctx : Ctx) : EndsNil (parsePage f ctx) := by
  unfold parsePage
  repeat
    first
    | exact ends_ensureEoF
    | (apply ends_bind; intro _)

theorem streamViewsDirectoryRead_ends : EndsNil streamViewsDirectoryRead := by
  unfold streamViewsDirectoryRead
  repeat
    first
    | exact ends_ensureEoF
    | (apply ends_bind; intro _)

/-- Claim C8 as stated is false: `readHierarchy` performs no
end-of-file assertion and returns successfully from a hierarchy stream
that still has an unread byte. -/
theorem claim_C8_counterexample :
    readHierarchy ctx0
        ⟨[0, 0, 0, 0, 0, 0, 0, 0, 0, 0x41, 0, 0, 0, 0, 0, 0, 0, 0, 0, 0, 0, 0, 0x99],
         0, 0⟩ =
      .ok (false, ⟨[0x99], 22, 0⟩) ∧ ([0x99] : List Nat) ≠ [] := by
  constructor
  · simp only [readHierarchy, hierarchyNetLoop, skipBytes, readStringLenZeroTerm,
      takeZstr, readUint16, readUint8_cons, PM.bind_apply, PM.pure]
    rfl
  · decide

/-- Claim C8, amended: `parsePage` and `StreamViewsDirectory::read`
assert end of file after their top-level content, so a successful parse
of those streams never returns with unread bytes; `readHierarchy`
performs no such assertion and can return with bytes remaining. -/
theorem claim_C8_amended :
    (∀ f ctx s r s₂, parsePage f ctx s = .ok (r, s₂) → s₂.bytes = []) ∧
    (∀ s r s₂, streamViewsDirectoryRead s = .ok (r, s₂) → s₂.bytes = []) :=
  ⟨fun f ctx => parsePage_ends f ctx, streamViewsDirectoryRead_ends⟩

/-- The all-zero single page stream used as a witness: 21 opaque
bytes, the preamble magic, and zeroes for every remaining field and
length. -/
def pageBytes : List Nat := [0, 0, 0, 0, 0, 0, 0, 0, 0, 0, 0, 0, 0, 0, 0, 0, 0, 0, 0, 0, 0, 255, 228, 92, 57, 0, 0, 0, 0, 0, 0, 0, 0, 0, 0, 0, 0, 0, 0, 0, 0, 0, 0, 0, 0, 0, 0, 0, 0, 0, 0, 0, 0, 0, 0, 0, 0, 0, 0, 0, 0, 0, 0, 0, 0, 0, 0, 0, 0, 0, 0, 0, 0, 0, 0, 0, 0, 0, 0, 0, 0, 0, 0, 0, 0, 0, 0, 0, 0, 0, 0, 0, 0, 0, 0, 0, 0, 0, 0, 0, 0, 0, 0, 0, 0, 0, 0, 0, 0, 0, 0, 0, 0, 0, 0, 0, 0, 0, 0, 0, 0, 0, 0, 0, 0, 0, 0, 0, 0, 0, 0, 0, 0, 0, 0, 0, 0, 0, 0, 0, 0, 0, 0, 0, 0, 0, 0, 0, 0, 0, 0, 0, 0, 0, 0, 0, 0, 0, 0, 0, 0, 0, 0, 0, 0, 0, 0, 0, 0, 0, 0, 0, 0, 0, 0, 0, 0, 0, 0, 0, 0, 0, 0, 0, 0, 0, 0, 0, 0, 0, 0, 0, 0, 0, 0, 0, 0, 0, 0, 0, 0, 0, 0, 0, 0, 0, 0, 0, 0, 0, 0]

set_option maxHeartbeats 4000000 in
set_option maxRecDepth 8000 in
theorem pageBytes_run :
    parsePage 1 ctx0 ⟨pageBytes, 0, 0⟩ = .ok ((), ⟨[], 211, 0⟩) := by
  simp only [parsePage, pageBytes, readPreamble, assumeData, skipBytes,
    readStringLenZeroTerm, takeZstr, readUint16, readUint32, readUint8_cons,
    structLoop, pageLen1Loop, pageLen3Loop, repeatSkip, PM.bind_apply, PM.pure,
    ensureEoF_nil, if_true, if_false]
  rfl

theorem viewsBytes_run :
    streamViewsDirectoryRead ⟨[0, 0, 0, 0, 0, 0], 0, 0⟩ = .ok ((), ⟨[], 6, 0⟩) := by
  simp only [streamViewsDirectoryRead, viewsDirItemLoop, readUint32, readUint16,
    readUint8_cons, PM.bind_apply, PM.pure, ensureEoF_nil]

/-- Witness for the amended claim C8: a concrete page stream and a
concrete views-directory stream parse successfully and both end with
the empty byte list. -/
theorem claim_C8_witness :
    (⟨[], 211, 0⟩ : PState).bytes = [] ∧ (⟨[], 6, 0⟩ : PState).bytes = [] :=
  ⟨claim_C8_amended.1 1 ctx0 ⟨pageBytes, 0, 0⟩ () ⟨[], 211, 0⟩ pageBytes_run,
   claim_C8_amended.2 ⟨[0, 0, 0, 0, 0, 0], 0, 0⟩ () ⟨[], 6, 0⟩ viewsBytes_run⟩

end O2CP
